import Mathlib

/-!
Shallow embedding of the CamIO pose-tracking and interaction pipeline from
`simple_camio.py`.  The pure fragments of the Python source are translated into
executable Lean definitions: numpy arrays become lists, floating-point values
become rationals, and Python exceptions become `Except`.  External collaborators
(the Aruco corner detector, `cv.solvePnP`, `cv.Rodrigues`, the camera, the audio
backend, the filesystem) are modelled as explicit parameters or record fields,
since the pipeline only marshals data into and out of them.
-/

/-- A 2-D image point: one row of the `scene` array. -/
abbrev Point2 : Type := ℚ × ℚ

/-- A 3-D point or vector: rows of `obj`, and the `rvec`/`tvec` vectors. -/
abbrev Vec3 : Type := ℚ × ℚ × ℚ

/-- One detected Aruco marker as returned by `cv.aruco.detectMarkers`: an id
(`ids[i, 0]`) together with its four pixel corners (`corners[i][0][j]`,
`j = 0..3`).  The frame where no markers are detected (`ids is None`) is
modelled by the empty observation list. -/
structure Obs where
  id : ℤ
  c0 : Point2
  c1 : Point2
  c2 : Point2
  c3 : Point2
deriving DecidableEq

/-- The `j`-th corner (`corners[i][0][j]`) of an observation. -/
def Obs.corner (o : Obs) (j : ℕ) : Point2 :=
  if j = 0 then o.c0 else if j = 1 then o.c1 else if j = 2 then o.c2 else o.c3

/-- Body of the `for i in range(len(corners))` loop of `sort_corners_by_id`
when `id in id_list` holds: the inner `for j in range(4)` loop writing the four
corners into `scene[4*corner_num+j, :]` and setting
`use_index[4*corner_num+j] = True`. -/
def writeObs (acc : List Point2 × List Bool) (corner_num : ℕ) (o : Obs) :
    List Point2 × List Bool :=
  ((((acc.1.set (4 * corner_num) (o.corner 0)).set (4 * corner_num + 1) (o.corner 1)).set
      (4 * corner_num + 2) (o.corner 2)).set (4 * corner_num + 3) (o.corner 3),
   (((acc.2.set (4 * corner_num) true).set (4 * corner_num + 1) true).set
      (4 * corner_num + 2) true).set (4 * corner_num + 3) true)

/-- One iteration of the loop of `sort_corners_by_id`: observations whose id is
not in `id_list` are skipped, otherwise `corner_num = id_list.index(id)` and the
four corners are written. -/
def sortStep (id_list : List ℤ) (acc : List Point2 × List Bool) (o : Obs) :
    List Point2 × List Bool :=
  if o.id ∈ id_list then writeObs acc (id_list.indexOf o.id) o else acc

/-- Translation of `sort_corners_by_id(corners, ids, id_list)`.  The
uninitialised `np.empty((len(id_list)*4, 2))` buffer is made explicit as the
`scene0` parameter (its contents are arbitrary machine garbage in the source);
`use_index` starts as `np.zeros(len(id_list)*4, dtype=bool)`. -/
def sort_corners_by_id (observations : List Obs) (id_list : List ℤ)
    (scene0 : List Point2) : List Point2 × List Bool :=
  observations.foldl (sortStep id_list) (scene0, List.replicate (id_list.length * 4) false)

/-- Numpy boolean-mask indexing `arr[use_index, :]`, as used by
`ModelDetector.detect` to filter `obj` and `scene` down to the valid rows. -/
def maskFilter (l : List α) (mask : List Bool) : List α :=
  (l.zip mask).filterMap (fun p => if p.2 then some p.1 else none)

/-- A 3×3 matrix with rational entries. -/
structure Mat3 where
  a11 : ℚ
  a12 : ℚ
  a13 : ℚ
  a21 : ℚ
  a22 : ℚ
  a23 : ℚ
  a31 : ℚ
  a32 : ℚ
  a33 : ℚ
deriving DecidableEq

/-- The identity matrix. -/
def mat3_id : Mat3 := ⟨1, 0, 0, 0, 1, 0, 0, 0, 1⟩

/-- Determinant of a 3×3 matrix. -/
def mat3_det (A : Mat3) : ℚ :=
  A.a11 * (A.a22 * A.a33 - A.a23 * A.a32) - A.a12 * (A.a21 * A.a33 - A.a23 * A.a31)
    + A.a13 * (A.a21 * A.a32 - A.a22 * A.a31)

/-- Matrix inverse by the adjugate formula, modelling `np.linalg.inv` on a
nonsingular 3×3 matrix. -/
def mat3_inv (A : Mat3) : Mat3 :=
  let d := mat3_det A
  ⟨(A.a22 * A.a33 - A.a23 * A.a32) / d, (A.a13 * A.a32 - A.a12 * A.a33) / d,
   (A.a12 * A.a23 - A.a13 * A.a22) / d, (A.a23 * A.a31 - A.a21 * A.a33) / d,
   (A.a11 * A.a33 - A.a13 * A.a31) / d, (A.a13 * A.a21 - A.a11 * A.a23) / d,
   (A.a21 * A.a32 - A.a22 * A.a31) / d, (A.a12 * A.a31 - A.a11 * A.a32) / d,
   (A.a11 * A.a22 - A.a12 * A.a21) / d⟩

/-- Matrix-vector product. -/
def mat3_mulVec (A : Mat3) (v : Vec3) : Vec3 :=
  (A.a11 * v.1 + A.a12 * v.2.1 + A.a13 * v.2.2,
   A.a21 * v.1 + A.a22 * v.2.1 + A.a23 * v.2.2,
   A.a31 * v.1 + A.a32 * v.2.1 + A.a33 * v.2.2)

/-- Componentwise vector subtraction (`poi - T`). -/
def vec3_sub (a b : Vec3) : Vec3 := (a.1 - b.1, a.2.1 - b.2.1, a.2.2 - b.2.2)

/-- Translation of `reverse_project(point, rvec, tvec)`.  `cv.Rodrigues` is an
external numeric collaborator converting an axis-angle vector to a rotation
matrix, so it is passed in as the `rodrigues` parameter. -/
def reverse_project (rodrigues : Vec3 → Mat3) (point : Vec3) (rvec : Vec3) (tvec : Vec3) :
    Vec3 :=
  let R := rodrigues rvec
  let R_inv := mat3_inv R
  mat3_mulVec R_inv (vec3_sub point tvec)

/-- The external `cv.solvePnP` collaborator: from 3-D object points and 2-D
scene points it returns `(retval, rvec, tvec)`.  The intrinsic matrix is fixed
per run, so it is absorbed into the solver parameter. -/
abbrev PnPSolver : Type := List Vec3 → List Point2 → Bool × Vec3 × Vec3

/-- Translation of `ModelDetector.detect`: sort the detected corners, return
`(False, None)` when `ids is None or not any(use_index)`, otherwise run
`solvePnP` on `obj[use_index, :]` and `scene[use_index, :]` (only the valid
rows). -/
def ModelDetector_detect (solve : PnPSolver) (obj : List Vec3) (list_of_ids : List ℤ)
    (observations : List Obs) (scene0 : List Point2) : Bool × Option (Vec3 × Vec3) :=
  let sc := sort_corners_by_id observations list_of_ids scene0
  if observations.isEmpty || !(sc.2.any (fun b => b)) then (false, none)
  else
    let r := solve (maskFilter obj sc.2) (maskFilter sc.1 sc.2)
    (r.1, some (r.2.1, r.2.2))

/-- Translation of `PoseDetector.detect`: sort the detected corners, return
`None` when `ids is None or not any(use_index)`, otherwise run `solvePnP` on
the full `self.obj` and the full `scene` array (the source does not index by
`use_index` here), ignore the solver status flag, and reverse-project
`tvec_aruco` through the model pose. -/
def PoseDetector_detect (solve : PnPSolver) (rodrigues : Vec3 → Mat3) (obj : List Vec3)
    (list_of_ids : List ℤ) (observations : List Obs) (scene0 : List Point2)
    (rvec_model tvec_model : Vec3) : Option Vec3 :=
  let sc := sort_corners_by_id observations list_of_ids scene0
  if observations.isEmpty || !(sc.2.any (fun b => b)) then none
  else
    let r := solve obj sc.1
    some (reverse_project rodrigues r.2.2 rvec_model tvec_model)

/-- The reference zone image loaded by `cv.imread`: BGR pixels indexed as
`img[row, col]`, with `shape[0] = rows` and `shape[1] = cols`. -/
structure Image where
  rows : ℕ
  cols : ℕ
  pix : ℕ → ℕ → ℤ × ℤ × ℤ

/-- Python `int()` applied to a real value: truncation toward zero. -/
def pyint (q : ℚ) : ℤ := if q < 0 then -⌊-q⌋ else ⌊q⌋

/-- Result of `get_zone`: either a BGR pixel array `img_map[y, x]` or the
scalar `0` returned on out-of-bounds coordinates (the two have different numpy
shapes, which matters for `match_color`). -/
inductive ZoneColor
  | pix (bgr : ℤ × ℤ × ℤ)
  | scalar (v : ℤ)
deriving DecidableEq

/-- Translation of `get_zone(point_of_interest, img_map, pixels_per_cm)`. -/
def get_zone (point_of_interest : Vec3) (img_map : Image) (pixels_per_cm : ℚ) : ZoneColor :=
  let x := pyint (point_of_interest.1 * pixels_per_cm)
  let y := pyint (point_of_interest.2.1 * pixels_per_cm)
  if 0 ≤ x ∧ x < (img_map.cols : ℤ) ∧ 0 ≤ y ∧ y < (img_map.rows : ℤ) then
    ZoneColor.pix (img_map.pix y.toNat x.toNat)
  else
    ZoneColor.scalar 0

/-- Translation of `match_color(rgb_color_list, bgr_color_np_array)`: compares
`np.array(rgb_color_list[::-1])` (the RGB triple reversed to BGR) with
`np.squeeze(bgr_color_np_array)` using `np.array_equal`.  A pixel compares
componentwise; the scalar `0` sentinel has shape `()` while the reversed colour
list has shape `(3,)`, and `np.array_equal` is false on mismatched shapes, so
the scalar never matches any colour, black included. -/
def match_color (rgb_color_list : ℤ × ℤ × ℤ) (bgr_color : ZoneColor) : Bool :=
  match bgr_color with
  | .pix bgr =>
      decide ((rgb_color_list.2.2, rgb_color_list.2.1, rgb_color_list.1) = bgr)
  | .scalar _ => false

/-- One hotspot of the zone registry, together with the two facts about the
external world the player consults for it: whether `os.path.exists` finds its
audio file, and whether `sound.play()` raises when invoked. -/
structure Hotspot where
  color : ℤ × ℤ × ℤ
  textDescription : String
  audioExists : Bool
  playFails : Bool
deriving DecidableEq

/-- The loop of `get_dict_idx_from_color` carrying the running index `i`. -/
def get_dict_idx_go (l : List Hotspot) (color : ZoneColor) (i : ℤ) : ℤ :=
  match l with
  | [] => -1
  | d :: rest => if match_color d.color color then i else get_dict_idx_go rest color (i + 1)

/-- Translation of `get_dict_idx_from_color(list_of_dicts, color)`: index of
the first hotspot whose colour matches, `-1` if none does. -/
def get_dict_idx_from_color (list_of_dicts : List Hotspot) (color : ZoneColor) : ℤ :=
  get_dict_idx_go list_of_dicts color 0

/-- `self.zone_filter_size = 10`. -/
def zone_filter_size : ℕ := 10

/-- Mutable state of `InteractionPolicy`: the ring buffer `self.zone_filter`
and its write cursor `self.zone_filter_cnt`. -/
structure InteractionState where
  zone_filter : List ℤ
  zone_filter_cnt : ℕ
deriving DecidableEq

/-- Model of `scipy.stats.mode(...).mode[0]` on a 1-D integer array: the most
frequent value; when several values are tied for most frequent, the smallest of
them is returned (scipy computes `np.unique` — sorted ascending — and takes the
first count argmax, and its documentation states that with more than one modal
value only the smallest is returned). -/
def stats_mode (l : List ℤ) : ℤ :=
  l.foldl
    (fun best x =>
      if l.count x > l.count best then x
      else if l.count x = l.count best ∧ x < best then x
      else best)
    (l.headD (-1))

/-- Formalisation of the words of the specification: the statistical mode where
the first-encountered value in the buffer wins ties.  Used only to compare the
specified tie-break against the one the source inherits from scipy. -/
def spec_first_encountered_mode (l : List ℤ) : ℤ :=
  l.foldl (fun best x => if l.count x > l.count best then x else best) (l.headD (-1))

/-- Translation of `InteractionPolicy.push_gesture(position)`: look up the zone
colour, decode it to a raw zone index, write it into the ring buffer, advance
the cursor modulo 10, take the mode of the buffer, and gate the returned value
on `np.abs(position[2]) < 2.0`. -/
def push_gesture (hotspots : List Hotspot) (image_map_color : Image) (pixels_per_cm : ℚ)
    (st : InteractionState) (position : Vec3) : InteractionState × ℤ :=
  let zone_color := get_zone position image_map_color pixels_per_cm
  let idx := get_dict_idx_from_color hotspots zone_color
  let zf := st.zone_filter.set st.zone_filter_cnt idx
  let cnt := (st.zone_filter_cnt + 1) % zone_filter_size
  let zone := stats_mode zf
  (⟨zf, cnt⟩, if |position.2.2| < 2 then zone else -1)

/-- Outcome of one `convey` call: nothing played, playback request issued, or
playback raised and the exception was caught and logged. -/
inductive PlayOutcome
  | noop
  | played
  | playFailedLogged
deriving DecidableEq

/-- An uncaught Python exception escaping a pipeline stage. -/
inductive PyErr
  | indexError
deriving DecidableEq

/-- Mutable state of `CamIOPlayer`: `self.prev_zone_name` and
`self.start_time`. -/
structure DispatchState where
  prev_zone_name : String
  start_time : ℚ
deriving DecidableEq

/-- The `self.sound_files` list built by `CamIOPlayer.__init__`: sounds are
loaded in hotspot order, but hotspots whose audio file does not exist are
skipped with a printed warning, so the list keeps only the hotspots with
existing audio. -/
def CamIOPlayer_sound_files (hotspots : List Hotspot) : List Hotspot :=
  hotspots.filter (fun h => h.audioExists)

/-- Translation of `CamIOPlayer.convey(zone)`.  `now` stands for `time.time()`.
Out-of-range list subscripts raise `IndexError` (uncaught in the source);
`sound.play()` raising is caught by the `try/except` and only logged, after
which `self.start_time` and `self.prev_zone_name` are still updated. -/
def convey (hotspots : List Hotspot) (sound_files : List Hotspot) (st : DispatchState)
    (zone : ℕ) (now : ℚ) : Except PyErr (DispatchState × PlayOutcome) :=
  match hotspots[zone]? with
  | none => .error .indexError
  | some h =>
    if st.prev_zone_name ≠ h.textDescription then
      if now - st.start_time > 1 / 2 then
        match sound_files[zone]? with
        | none => .error .indexError
        | some s =>
            .ok (⟨h.textDescription, now⟩, if s.playFails then .playFailedLogged else .played)
      else .ok (st, .noop)
    else .ok (st, .noop)

/-- Per-run configuration of the pipeline: the two marker layouts, the zone
registry, the reference image, and the external numeric collaborators. -/
structure Config where
  mapObj : List Vec3
  mapIds : List ℤ
  ptrObj : List Vec3
  ptrIds : List ℤ
  hotspots : List Hotspot
  img : Image
  pixels_per_cm : ℚ
  solve : PnPSolver
  rodrigues : Vec3 → Mat3

/-- State carried across main-loop iterations. -/
structure PipelineState where
  interact : InteractionState
  player : DispatchState
deriving DecidableEq

/-- External inputs to one main-loop iteration: the camera read status, the
keypress, the two detector outputs for this frame, the scratch buffers, and the
current time. -/
structure FrameInput where
  ret : Bool
  loop_has_run : Bool
  quitKey : Bool
  mapObs : List Obs
  ptrObs : List Obs
  scene0Map : List Point2
  scene0Ptr : List Point2
  now : ℚ

/-- What one main-loop iteration did after the early-exit checks. -/
inductive FrameOutcome
  | noMarkers
  | noPointer
  | classified (zone : ℤ) (play : Option PlayOutcome)
deriving DecidableEq

/-- Result of one main-loop iteration: the loop `break`s, an uncaught exception
terminates the process, or the loop continues with a new state. -/
inductive StepResult
  | halt
  | crash (e : PyErr)
  | next (st : PipelineState) (out : FrameOutcome)
deriving DecidableEq

/-- Translation of one iteration of the main loop of `simple_camio.py`:
camera-read failure and the escape key break the loop; `continue` is taken when
the map detector fails (`not retval`) or the pointer detector returns `None`;
otherwise the gesture is classified and, when `zone_id > -1`, `convey` runs. -/
def frameStep (cfg : Config) (st : PipelineState) (inp : FrameInput) : StepResult :=
  if !inp.ret then .halt
  else if inp.loop_has_run && inp.quitKey then .halt
  else
    let md := ModelDetector_detect cfg.solve cfg.mapObj cfg.mapIds inp.mapObs inp.scene0Map
    if !md.1 then .next st .noMarkers
    else
      match md.2 with
      | none => .next st .noMarkers
      | some (rvec, tvec) =>
        match PoseDetector_detect cfg.solve cfg.rodrigues cfg.ptrObj cfg.ptrIds inp.ptrObs
            inp.scene0Ptr rvec tvec with
        | none => .next st .noPointer
        | some poi =>
          let iz := push_gesture cfg.hotspots cfg.img cfg.pixels_per_cm st.interact poi
          if iz.2 > -1 then
            match convey cfg.hotspots (CamIOPlayer_sound_files cfg.hotspots) st.player
                iz.2.toNat inp.now with
            | .error e => .crash e
            | .ok r => .next ⟨iz.1, r.1⟩ (.classified iz.2 (some r.2))
          else .next ⟨iz.1, st.player⟩ (.classified iz.2 none)

/-- The sub-list of layout ids that were observed this frame: the sets `S` of
the correspondence-matcher claims. -/
def observedSubset (observations : List Obs) (id_list : List ℤ) : List ℤ :=
  id_list.filter (fun a => decide (a ∈ observations.map Obs.id))

/-! ## General lemmas about the zone lookup and the mode filter -/

/-- The sentinel scalar colour returned on out-of-bounds coordinates matches no
hotspot, so the raw zone index of the loop is `-1` from any running index. -/
theorem get_dict_idx_go_scalar (l : List Hotspot) (v : ℤ) :
    ∀ i : ℤ, get_dict_idx_go l (ZoneColor.scalar v) i = -1 := by
  induction l with
  | nil => intro i; rfl
  | cons d rest ih =>
    intro i
    simpa [get_dict_idx_go, match_color] using ih (i + 1)

/-- Folding the mode step over any traversal sub-list keeps the accumulator an
element of `l`, never decreases its count, dominates the count of every
traversed element, and on count ties stays at the smaller value. -/
theorem mode_foldl_invariant (l : List ℤ) (t : List ℤ) :
    ∀ init : ℤ, (∀ x ∈ t, x ∈ l) → init ∈ l →
      (t.foldl
          (fun best x =>
            if l.count x > l.count best then x
            else if l.count x = l.count best ∧ x < best then x
            else best) init) ∈ l
      ∧ l.count init ≤ l.count (t.foldl
          (fun best x =>
            if l.count x > l.count best then x
            else if l.count x = l.count best ∧ x < best then x
            else best) init)
      ∧ (∀ x ∈ t, l.count x ≤ l.count (t.foldl
          (fun best x =>
            if l.count x > l.count best then x
            else if l.count x = l.count best ∧ x < best then x
            else best) init))
      ∧ (l.count init = l.count (t.foldl
          (fun best x =>
            if l.count x > l.count best then x
            else if l.count x = l.count best ∧ x < best then x
            else best) init) →
          (t.foldl
            (fun best x =>
              if l.count x > l.count best then x
              else if l.count x = l.count best ∧ x < best then x
              else best) init) ≤ init)
      ∧ (∀ x ∈ t, l.count x = l.count (t.foldl
          (fun best x =>
            if l.count x > l.count best then x
            else if l.count x = l.count best ∧ x < best then x
            else best) init) →
          (t.foldl
            (fun best x =>
              if l.count x > l.count best then x
              else if l.count x = l.count best ∧ x < best then x
              else best) init) ≤ x) := by
  induction t with
  | nil =>
    intro init _ hinit
    exact ⟨hinit, le_refl _, by simp, fun _ => le_refl _, by simp⟩
  | cons x0 rest ih =>
    intro init hsub hinit
    simp only [List.foldl_cons]
    have hx0 : x0 ∈ l := hsub x0 (by simp)
    set acc1 : ℤ :=
      if l.count x0 > l.count init then x0
      else if l.count x0 = l.count init ∧ x0 < init then x0
      else init with hacc1
    have hacc1mem : acc1 ∈ l := by
      rw [hacc1]; split_ifs <;> first | exact hx0 | exact hinit
    have hge_init : l.count init ≤ l.count acc1 := by
      rw [hacc1]; split_ifs with h1 h2
      · exact le_of_lt h1
      · exact le_of_eq h2.1.symm
      · exact le_refl _
    have hge_x0 : l.count x0 ≤ l.count acc1 := by
      rw [hacc1]; split_ifs with h1 h2
      · exact le_refl _
      · exact le_refl _
      · omega
    have hle_init : l.count init = l.count acc1 → acc1 ≤ init := by
      rw [hacc1]; split_ifs with h1 h2
      · intro h; omega
      · intro _; exact le_of_lt h2.2
      · intro _; exact le_refl _
    have hle_x0 : l.count x0 = l.count acc1 → acc1 ≤ x0 := by
      rw [hacc1]; split_ifs with h1 h2
      · intro _; exact le_refl _
      · intro _; exact le_refl _
      · intro h
        push_neg at h2
        have := h2 (by omega)
        omega
    obtain ⟨rmem, rge, rall, rinit, rmin⟩ :=
      ih acc1 (fun x hx => hsub x (by simp [hx])) hacc1mem
    refine ⟨rmem, le_trans hge_init rge, ?_, ?_, ?_⟩
    · intro x hx
      rcases List.mem_cons.mp hx with h | h
      · exact h ▸ le_trans hge_x0 rge
      · exact rall x h
    · intro heq
      have h1 : l.count acc1 = l.count _ := le_antisymm rge (by omega)
      exact le_trans (rinit h1) (hle_init (by omega))
    · intro x hx heq
      rcases List.mem_cons.mp hx with h | h
      · subst h
        have h1 : l.count acc1 = l.count _ := le_antisymm rge (by omega)
        exact le_trans (rinit h1) (hle_x0 (by omega))
      · exact rmin x h heq

/-- `stats_mode` of a nonempty list is an element of maximal multiplicity, and
the least element among those of maximal multiplicity. -/
theorem stats_mode_spec (l : List ℤ) (hl : l ≠ []) :
    stats_mode l ∈ l
    ∧ (∀ x ∈ l, l.count x ≤ l.count (stats_mode l))
    ∧ (∀ x ∈ l, l.count x = l.count (stats_mode l) → stats_mode l ≤ x) := by
  have hhead : l.headD (-1) ∈ l := by
    cases l with
    | nil => exact absurd rfl hl
    | cons a t => simp
  obtain ⟨h1, _, h3, _, h5⟩ := mode_foldl_invariant l l (l.headD (-1)) (fun x hx => hx) hhead
  exact ⟨h1, h3, h5⟩

/-! ## Claim theorems: dispatcher and zone classifier -/

/-- C4 (code-bug evidence): with a registry whose first hotspot lacks its audio
file, `self.sound_files` is shorter than the hotspot list, and a dispatch for
the later zone raises an uncaught `IndexError` instead of merely logging a
playback failure — `prev_zone_name` is never updated.  In contrast, when the
asset loads and only the playback backend errors, the exception is caught and
`DispatchState` still records the attempted zone. -/
theorem C4_missing_asset_crashes_dispatch :
    convey [⟨(1, 2, 3), "zero", false, false⟩, ⟨(4, 5, 6), "one", true, false⟩]
        (CamIOPlayer_sound_files
          [⟨(1, 2, 3), "zero", false, false⟩, ⟨(4, 5, 6), "one", true, false⟩])
        ⟨"", 0⟩ 1 1 = .error .indexError
    ∧ convey [⟨(1, 2, 3), "zero", true, true⟩]
        (CamIOPlayer_sound_files [⟨(1, 2, 3), "zero", true, true⟩])
        ⟨"", 0⟩ 0 1 = .ok (⟨"zero", 1⟩, .playFailedLogged) := by
  constructor
  · norm_num [convey, CamIOPlayer_sound_files]
    exact fun h => absurd h (by decide)
  · norm_num [convey, CamIOPlayer_sound_files]
    decide

/-- C5: the proximity gate of `push_gesture`: whenever `|z| ≥ 2.0` the returned
zone is `-1` whatever the ring buffer holds, and whenever `|z| < 2.0` the
returned zone is the mode of the updated buffer. -/
theorem C5_proximity_gate (hotspots : List Hotspot) (img : Image) (ppcm : ℚ)
    (st : InteractionState) (position : Vec3) :
    ((2 : ℚ) ≤ |position.2.2| → (push_gesture hotspots img ppcm st position).2 = -1)
    ∧ (|position.2.2| < 2 →
        (push_gesture hotspots img ppcm st position).2 =
          stats_mode ((push_gesture hotspots img ppcm st position).1.zone_filter)) := by
  constructor
  · intro h
    have h2 : ¬ |position.2.2| < 2 := not_lt.mpr h
    simp [push_gesture, h2]
  · intro h
    simp [push_gesture, h]

/-- Witness for C5 at concrete inputs: a hovering position (`z = 5`) yields
`-1`, a touching position (`z = 0`) yields the buffer mode. -/
theorem C5_witness :
    (push_gesture [] ⟨0, 0, fun _ _ => (0, 0, 0)⟩ 1 ⟨List.replicate 10 (-1), 0⟩ (0, 0, 5)).2 = -1
    ∧ (push_gesture [] ⟨0, 0, fun _ _ => (0, 0, 0)⟩ 1 ⟨List.replicate 10 (-1), 0⟩ (0, 0, 0)).2 =
        stats_mode ((push_gesture [] ⟨0, 0, fun _ _ => (0, 0, 0)⟩ 1
          ⟨List.replicate 10 (-1), 0⟩ (0, 0, 0)).1.zone_filter) :=
  ⟨(C5_proximity_gate [] ⟨0, 0, fun _ _ => (0, 0, 0)⟩ 1 ⟨List.replicate 10 (-1), 0⟩ (0, 0, 5)).1
      (by norm_num),
   (C5_proximity_gate [] ⟨0, 0, fun _ _ => (0, 0, 0)⟩ 1 ⟨List.replicate 10 (-1), 0⟩ (0, 0, 0)).2
      (by norm_num)⟩

/-- C7: when the scaled pixel coordinates land outside the reference image, the
raw zone id of the lookup is `-1` for every zone registry (the scalar sentinel
colour has the wrong numpy shape to match any hotspot colour, black included),
and `-1` is what gets written into the ring buffer. -/
theorem C7_out_of_bounds_is_minus_one (position : Vec3) (img : Image) (ppcm : ℚ)
    (hotspots : List Hotspot)
    (hout : ¬(0 ≤ pyint (position.1 * ppcm) ∧ pyint (position.1 * ppcm) < (img.cols : ℤ)
        ∧ 0 ≤ pyint (position.2.1 * ppcm) ∧ pyint (position.2.1 * ppcm) < (img.rows : ℤ))) :
    get_dict_idx_from_color hotspots (get_zone position img ppcm) = -1
    ∧ ∀ st : InteractionState,
        (push_gesture hotspots img ppcm st position).1.zone_filter =
          st.zone_filter.set st.zone_filter_cnt (-1) := by
  have hz : get_zone position img ppcm = ZoneColor.scalar 0 := by
    simp only [get_zone]
    rw [if_neg hout]
  constructor
  · rw [hz]
    exact get_dict_idx_go_scalar hotspots 0 0
  · intro st
    simp [push_gesture, hz, get_dict_idx_from_color, get_dict_idx_go_scalar]

/-- Witness for C7: a position left of the map on a registry containing a black
hotspot. -/
theorem C7_witness :
    get_dict_idx_from_color [⟨(0, 0, 0), "black", true, false⟩]
        (get_zone (-1, 0, 0) ⟨5, 5, fun _ _ => (0, 0, 0)⟩ 1) = -1
    ∧ (push_gesture [⟨(0, 0, 0), "black", true, false⟩] ⟨5, 5, fun _ _ => (0, 0, 0)⟩ 1
        ⟨List.replicate 10 7, 3⟩ (-1, 0, 0)).1.zone_filter =
        (List.replicate 10 (7 : ℤ)).set 3 (-1) :=
  ⟨(C7_out_of_bounds_is_minus_one (-1, 0, 0) ⟨5, 5, fun _ _ => (0, 0, 0)⟩ 1
      [⟨(0, 0, 0), "black", true, false⟩] (by norm_num [pyint])).1,
   (C7_out_of_bounds_is_minus_one (-1, 0, 0) ⟨5, 5, fun _ _ => (0, 0, 0)⟩ 1
      [⟨(0, 0, 0), "black", true, false⟩] (by norm_num [pyint])).2 ⟨List.replicate 10 7, 3⟩⟩

/-- C9: `reverse_project` really computes the inverse image of `point - tvec`
under the Rodrigues rotation (applying the rotation to its result gives back
`point - tvec` whenever the matrix is nonsingular), and when the map pose is
the identity rotation with zero translation the pointer translation `(a, b, c)`
comes back exactly. -/
theorem C9_reverse_projection (rodrigues : Vec3 → Mat3) (point rvec tvec : Vec3) :
    (mat3_det (rodrigues rvec) ≠ 0 →
      mat3_mulVec (rodrigues rvec) (reverse_project rodrigues point rvec tvec) =
        vec3_sub point tvec)
    ∧ (rodrigues rvec = mat3_id → tvec = (0, 0, 0) →
        reverse_project rodrigues point rvec tvec = point) := by
  constructor
  · intro hd
    rcases hA : rodrigues rvec with ⟨a, b, c, d, e, f, g, h, i⟩
    rw [hA] at hd
    simp only [mat3_det] at hd
    rcases point with ⟨px, py, pz⟩
    rcases tvec with ⟨tx, ty, tz⟩
    simp only [reverse_project, hA, mat3_mulVec, mat3_inv, mat3_det, vec3_sub, Prod.mk.injEq]
    refine ⟨?_, ?_, ?_⟩ <;> field_simp <;> ring
  · intro hI ht
    rcases point with ⟨px, py, pz⟩
    subst ht
    simp [reverse_project, hI, mat3_inv, mat3_det, mat3_id, mat3_mulVec, vec3_sub]

/-- Witness for C9 with the identity rotation, zero translation and pointer
translation `(1, 2, 3)`. -/
theorem C9_witness :
    mat3_mulVec ((fun _ : Vec3 => mat3_id) (0, 0, 0))
        (reverse_project (fun _ => mat3_id) (1, 2, 3) (0, 0, 0) (0, 0, 0)) =
      vec3_sub (1, 2, 3) (0, 0, 0)
    ∧ reverse_project (fun _ => mat3_id) (1, 2, 3) (0, 0, 0) (0, 0, 0) = (1, 2, 3) :=
  ⟨(C9_reverse_projection (fun _ => mat3_id) (1, 2, 3) (0, 0, 0) (0, 0, 0)).1
      (by norm_num [mat3_det, mat3_id]),
   (C9_reverse_projection (fun _ => mat3_id) (1, 2, 3) (0, 0, 0) (0, 0, 0)).2 rfl rfl⟩

/-- C6 counterexample: after a classification writes `-1` into slot 9 of a
buffer holding four `2`s (encountered first) and four `1`s, the values `1` and
`2` tie at four occurrences each; the filter returns `1` (the smallest modal
value, scipy's tie-break) while the first-encountered tie-break demanded by the
specification would return `2`. -/
theorem C6_counterexample :
    (push_gesture [] ⟨0, 0, fun _ _ => (0, 0, 0)⟩ 1
        ⟨[2, 2, 2, 2, 1, 1, 1, 1, -1, 5], 9⟩ (0, 0, 0)).2 = 1
    ∧ spec_first_encountered_mode
        ((push_gesture [] ⟨0, 0, fun _ _ => (0, 0, 0)⟩ 1
          ⟨[2, 2, 2, 2, 1, 1, 1, 1, -1, 5], 9⟩ (0, 0, 0)).1.zone_filter) = 2 := by
  have h1 : get_zone (0, 0, 0) ⟨0, 0, fun _ _ => (0, 0, 0)⟩ 1 = ZoneColor.scalar 0 := by
    norm_num [get_zone, pyint]
  constructor
  · simp only [push_gesture, h1]
    norm_num [get_dict_idx_from_color, get_dict_idx_go]
    decide
  · simp only [push_gesture, h1]
    norm_num [get_dict_idx_from_color, get_dict_idx_go]
    decide

/-- C6 (amended): after each classification writes the raw zone id into the
ring buffer, the value returned under the proximity gate is the statistical
mode of the updated 10-entry buffer, where a tie between most frequent values
is broken in favour of the smallest value (the tie-break of `scipy.stats.mode`,
not the first-encountered value as the specification words it). -/
theorem C6_amended_mode_filter (hotspots : List Hotspot) (img : Image) (ppcm : ℚ)
    (st : InteractionState) (position : Vec3)
    (hlen : st.zone_filter.length = zone_filter_size)
    (hz : |position.2.2| < 2) :
    ((push_gesture hotspots img ppcm st position).1.zone_filter =
        st.zone_filter.set st.zone_filter_cnt
          (get_dict_idx_from_color hotspots (get_zone position img ppcm)))
    ∧ (push_gesture hotspots img ppcm st position).1.zone_filter.length = zone_filter_size
    ∧ (push_gesture hotspots img ppcm st position).2 =
        stats_mode ((push_gesture hotspots img ppcm st position).1.zone_filter)
    ∧ (push_gesture hotspots img ppcm st position).2 ∈
        (push_gesture hotspots img ppcm st position).1.zone_filter
    ∧ (∀ x ∈ (push_gesture hotspots img ppcm st position).1.zone_filter,
        (push_gesture hotspots img ppcm st position).1.zone_filter.count x ≤
          (push_gesture hotspots img ppcm st position).1.zone_filter.count
            ((push_gesture hotspots img ppcm st position).2))
    ∧ (∀ x ∈ (push_gesture hotspots img ppcm st position).1.zone_filter,
        (push_gesture hotspots img ppcm st position).1.zone_filter.count x =
          (push_gesture hotspots img ppcm st position).1.zone_filter.count
            ((push_gesture hotspots img ppcm st position).2) →
          (push_gesture hotspots img ppcm st position).2 ≤ x) := by
  have hzf : (push_gesture hotspots img ppcm st position).1.zone_filter =
      st.zone_filter.set st.zone_filter_cnt
        (get_dict_idx_from_color hotspots (get_zone position img ppcm)) := by
    simp [push_gesture]
  have hres : (push_gesture hotspots img ppcm st position).2 =
      stats_mode ((push_gesture hotspots img ppcm st position).1.zone_filter) := by
    simp [push_gesture, hz]
  have hlen2 : (push_gesture hotspots img ppcm st position).1.zone_filter.length =
      zone_filter_size := by
    rw [hzf, List.length_set, hlen]
  have hne : (push_gesture hotspots img ppcm st position).1.zone_filter ≠ [] := by
    intro hcon
    rw [hcon] at hlen2
    simp [zone_filter_size] at hlen2
  obtain ⟨m1, m2, m3⟩ := stats_mode_spec _ hne
  rw [hres]
  exact ⟨hzf, hlen2, rfl, m1, m2, m3⟩

/-- Witness for the amended C6 on a fresh buffer. -/
theorem C6_amended_witness :
    (push_gesture [] ⟨0, 0, fun _ _ => (0, 0, 0)⟩ 1
        ⟨List.replicate 10 (-1), 0⟩ (0, 0, 0)).1.zone_filter =
      (List.replicate 10 (-1 : ℤ)).set 0
        (get_dict_idx_from_color [] (get_zone (0, 0, 0) ⟨0, 0, fun _ _ => (0, 0, 0)⟩ 1))
    ∧ (push_gesture [] ⟨0, 0, fun _ _ => (0, 0, 0)⟩ 1
        ⟨List.replicate 10 (-1), 0⟩ (0, 0, 0)).2 =
      stats_mode ((push_gesture [] ⟨0, 0, fun _ _ => (0, 0, 0)⟩ 1
        ⟨List.replicate 10 (-1), 0⟩ (0, 0, 0)).1.zone_filter) :=
  ⟨(C6_amended_mode_filter [] ⟨0, 0, fun _ _ => (0, 0, 0)⟩ 1 ⟨List.replicate 10 (-1), 0⟩
      (0, 0, 0) (by decide) (by norm_num)).1,
   (C6_amended_mode_filter [] ⟨0, 0, fun _ _ => (0, 0, 0)⟩ 1 ⟨List.replicate 10 (-1), 0⟩
      (0, 0, 0) (by decide) (by norm_num)).2.2.1⟩

/-- C8 counterexample: a dispatch call for a zone whose description differs
from the last dispatched one, arriving when exactly 0.5 seconds have elapsed,
is a no-op — the source requires strictly more than 0.5 seconds, so "at least
0.5 seconds" does not trigger playback. -/
theorem C8_counterexample :
    convey [⟨(0, 0, 0), "w", true, false⟩]
        (CamIOPlayer_sound_files [⟨(0, 0, 0), "w", true, false⟩]) ⟨"", 0⟩ 0 (1 / 2) =
      .ok (⟨"", 0⟩, .noop)
    ∧ ("" : String) ≠ "w" ∧ (1 / 2 : ℚ) - 0 ≥ 1 / 2 := by
  refine ⟨?_, by decide, by norm_num⟩
  norm_num [convey, CamIOPlayer_sound_files]

/-- C8 (amended): with the zone resolving to a hotspot and its sound loaded, a
dispatch call plays and updates `DispatchState` exactly when the description
differs from the last dispatched one and strictly more than 0.5 seconds have
elapsed since the last dispatch; otherwise it is a no-op; and immediately after
a dispatch, further calls for the same zone are no-ops at any time (the
cooldown clock is the single `start_time` field, not a per-zone timer). -/
theorem C8_amended_dispatch_condition (hotspots : List Hotspot) (st : DispatchState)
    (zone : ℕ) (now : ℚ) (h s : Hotspot)
    (hh : hotspots[zone]? = some h)
    (hs : (CamIOPlayer_sound_files hotspots)[zone]? = some s) :
    (st.prev_zone_name ≠ h.textDescription ∧ now - st.start_time > 1 / 2 →
      convey hotspots (CamIOPlayer_sound_files hotspots) st zone now =
        .ok (⟨h.textDescription, now⟩, if s.playFails then .playFailedLogged else .played))
    ∧ (¬(st.prev_zone_name ≠ h.textDescription ∧ now - st.start_time > 1 / 2) →
      convey hotspots (CamIOPlayer_sound_files hotspots) st zone now = .ok (st, .noop))
    ∧ (∀ now2 : ℚ,
      convey hotspots (CamIOPlayer_sound_files hotspots) ⟨h.textDescription, now⟩ zone now2 =
        .ok (⟨h.textDescription, now⟩, .noop)) := by
  refine ⟨?_, ?_, ?_⟩
  · rintro ⟨h1, h2⟩
    simp only [convey, hh]
    rw [if_pos h1, if_pos h2, hs]
  · intro hne
    rw [not_and_or] at hne
    rcases hne with h1 | h2
    · rw [not_ne_iff] at h1
      simp only [convey, hh]
      rw [if_neg (not_ne_iff.mpr h1)]
    · by_cases h1 : st.prev_zone_name = h.textDescription
      · simp only [convey, hh]
        rw [if_neg (not_ne_iff.mpr h1)]
      · simp only [convey, hh]
        rw [if_pos h1, if_neg h2]
  · intro now2
    simp only [convey, hh]
    rw [if_neg (not_ne_iff.mpr rfl)]

/-- Witness for the amended C8: a first entry into a zone after the cooldown
triggers playback and records the zone. -/
theorem C8_amended_witness :
    convey [⟨(0, 0, 0), "w", true, false⟩]
        (CamIOPlayer_sound_files [⟨(0, 0, 0), "w", true, false⟩]) ⟨"", 0⟩ 0 1 =
      .ok (⟨"w", 1⟩, .played) := by
  have h := (C8_amended_dispatch_condition [⟨(0, 0, 0), "w", true, false⟩] ⟨"", 0⟩ 0 1
      ⟨(0, 0, 0), "w", true, false⟩ ⟨(0, 0, 0), "w", true, false⟩ rfl rfl).1
    ⟨by decide, by norm_num⟩
  simpa using h

/-- C10: a dispatch naming a zone whose description differs from the last
dispatched one, but arriving while the cooldown is still running, leaves
`DispatchState` entirely unchanged (neither `prev_zone_name` nor `start_time`
moves), so the same pending transition triggers playback once a later call
arrives after the cooldown. -/
theorem C10_cooldown_noop_preserves_state (hotspots : List Hotspot) (st : DispatchState)
    (zone : ℕ) (now : ℚ) (h : Hotspot)
    (hh : hotspots[zone]? = some h)
    (hname : st.prev_zone_name ≠ h.textDescription)
    (ht : ¬(now - st.start_time > 1 / 2)) :
    convey hotspots (CamIOPlayer_sound_files hotspots) st zone now = .ok (st, .noop)
    ∧ (∀ now2 : ℚ, ∀ s : Hotspot, (CamIOPlayer_sound_files hotspots)[zone]? = some s →
        now2 - st.start_time > 1 / 2 →
        convey hotspots (CamIOPlayer_sound_files hotspots) st zone now2 =
          .ok (⟨h.textDescription, now2⟩,
            if s.playFails then .playFailedLogged else .played)) := by
  constructor
  · simp only [convey, hh]
    rw [if_pos hname, if_neg ht]
  · intro now2 s hs ht2
    simp only [convey, hh]
    rw [if_pos hname, if_pos ht2, hs]

/-- Witness for C10: the early call at `t = 1/4` is a no-op with untouched
state, and the retry at `t = 1` plays. -/
theorem C10_witness :
    convey [⟨(0, 0, 0), "w", true, false⟩]
        (CamIOPlayer_sound_files [⟨(0, 0, 0), "w", true, false⟩]) ⟨"", 0⟩ 0 (1 / 4) =
      .ok (⟨"", 0⟩, .noop)
    ∧ convey [⟨(0, 0, 0), "w", true, false⟩]
        (CamIOPlayer_sound_files [⟨(0, 0, 0), "w", true, false⟩]) ⟨"", 0⟩ 0 1 =
      .ok (⟨"w", 1⟩, .played) := by
  have h := C10_cooldown_noop_preserves_state [⟨(0, 0, 0), "w", true, false⟩] ⟨"", 0⟩ 0 (1 / 4)
    ⟨(0, 0, 0), "w", true, false⟩ rfl (by decide) (by norm_num)
  refine ⟨h.1, ?_⟩
  have h2 := h.2 1 ⟨(0, 0, 0), "w", true, false⟩ rfl (by norm_num)
  simpa using h2


/-! ## Lemmas about the correspondence matcher `sort_corners_by_id` -/


theorem getElem?_set_at (l : List α) (i j : ℕ) (a : α) (hlen : i < l.length) :
    (l.set i a)[j]? = if i = j then some a else l[j]? := by
  split_ifs with h
  · subst h; exact List.getElem?_set_eq_of_lt a hlen
  · exact List.getElem?_set_ne h

theorem sort_foldl_length (id_list : List ℤ) (observations : List Obs) :
    ∀ acc : List Point2 × List Bool,
      (observations.foldl (sortStep id_list) acc).1.length = acc.1.length
      ∧ (observations.foldl (sortStep id_list) acc).2.length = acc.2.length := by
  induction observations with
  | nil => intro acc; exact ⟨rfl, rfl⟩
  | cons o rest ih =>
    intro acc
    simp only [List.foldl_cons]
    refine ⟨?_, ?_⟩
    · rw [(ih (sortStep id_list acc o)).1]
      unfold sortStep writeObs
      split <;> simp [List.length_set]
    · rw [(ih (sortStep id_list acc o)).2]
      unfold sortStep writeObs
      split <;> simp [List.length_set]

theorem sort_corners_mask_length (observations : List Obs) (id_list : List ℤ)
    (scene0 : List Point2) :
    (sort_corners_by_id observations id_list scene0).2.length = id_list.length * 4 := by
  unfold sort_corners_by_id
  rw [(sort_foldl_length id_list observations _).2, List.length_replicate]

theorem sort_corners_scene_length (observations : List Obs) (id_list : List ℤ)
    (scene0 : List Point2) :
    (sort_corners_by_id observations id_list scene0).1.length = scene0.length := by
  unfold sort_corners_by_id
  rw [(sort_foldl_length id_list observations _).1]

theorem writeObs_mask_getElem_hit (acc : List Point2 × List Bool) (k : ℕ) (o : Obs)
    (j : ℕ) (hj : j < 4) (hlen : 4 * k + 3 < acc.2.length) :
    (writeObs acc k o).2[4 * k + j]? = some true := by
  unfold writeObs
  rw [getElem?_set_at _ _ _ _ (by simp [List.length_set]; omega),
      getElem?_set_at _ _ _ _ (by simp [List.length_set]; omega),
      getElem?_set_at _ _ _ _ (by simp [List.length_set]; omega),
      getElem?_set_at _ _ _ _ (by omega)]
  split_ifs <;> first | rfl | omega

theorem writeObs_mask_getElem_miss (acc : List Point2 × List Bool) (k : ℕ) (o : Obs)
    (i : ℕ) (hout : i < 4 * k ∨ 4 * k + 3 < i) :
    (writeObs acc k o).2[i]? = acc.2[i]? := by
  unfold writeObs
  rw [List.getElem?_set_ne (by omega), List.getElem?_set_ne (by omega),
    List.getElem?_set_ne (by omega), List.getElem?_set_ne (by omega)]

theorem writeObs_scene_getElem_hit (acc : List Point2 × List Bool) (k : ℕ) (o : Obs)
    (j : ℕ) (hj : j < 4) (hlen : 4 * k + 3 < acc.1.length) :
    (writeObs acc k o).1[4 * k + j]? = some (o.corner j) := by
  unfold writeObs
  rw [getElem?_set_at _ _ _ _ (by simp [List.length_set]; omega),
      getElem?_set_at _ _ _ _ (by simp [List.length_set]; omega),
      getElem?_set_at _ _ _ _ (by simp [List.length_set]; omega),
      getElem?_set_at _ _ _ _ (by omega)]
  have h4 : j = 0 ∨ j = 1 ∨ j = 2 ∨ j = 3 := by omega
  rcases h4 with h | h | h | h <;> subst h <;> split_ifs <;> first | rfl | omega

theorem writeObs_scene_getElem_miss (acc : List Point2 × List Bool) (k : ℕ) (o : Obs)
    (i : ℕ) (hout : i < 4 * k ∨ 4 * k + 3 < i) :
    (writeObs acc k o).1[i]? = acc.1[i]? := by
  unfold writeObs
  rw [List.getElem?_set_ne (by omega), List.getElem?_set_ne (by omega),
    List.getElem?_set_ne (by omega), List.getElem?_set_ne (by omega)]

theorem sort_foldl_untouched (id_list : List ℤ) (observations : List Obs) :
    ∀ (acc : List Point2 × List Bool) (k : ℕ) (hk : k < id_list.length),
      id_list.get ⟨k, hk⟩ ∉ observations.map Obs.id →
      ∀ i : ℕ, 4 * k ≤ i → i ≤ 4 * k + 3 →
      ((observations.foldl (sortStep id_list) acc).1[i]? = acc.1[i]?
        ∧ (observations.foldl (sortStep id_list) acc).2[i]? = acc.2[i]?) := by
  induction observations with
  | nil => intros; exact ⟨rfl, rfl⟩
  | cons o rest ih =>
    intro acc k hk hnotin i hi1 hi2
    simp only [List.map_cons, List.mem_cons, not_or] at hnotin
    simp only [List.foldl_cons]
    obtain ⟨ih1, ih2⟩ := ih (sortStep id_list acc o) k hk hnotin.2 i hi1 hi2
    rw [ih1, ih2]
    unfold sortStep
    split_ifs with hmem
    · have hk0 : id_list.indexOf o.id < id_list.length := List.indexOf_lt_length.mpr hmem
      have hgetk0 : id_list.get ⟨id_list.indexOf o.id, hk0⟩ = o.id := List.indexOf_get hk0
      have hkne : id_list.indexOf o.id ≠ k := by
        intro hcon
        apply hnotin.1
        have hgg : id_list.get ⟨k, hk⟩ = id_list.get ⟨id_list.indexOf o.id, hk0⟩ := by
          congr 1
          exact Fin.ext hcon.symm
        rw [hgg, hgetk0]
      exact ⟨writeObs_scene_getElem_miss acc _ o i (by omega),
        writeObs_mask_getElem_miss acc _ o i (by omega)⟩
    · exact ⟨rfl, rfl⟩


theorem mask_foldl_getElem (id_list : List ℤ) (hids : id_list.Nodup) (observations : List Obs) :
    ∀ (acc : List Point2 × List Bool), acc.2.length = id_list.length * 4 →
      ∀ (k : ℕ) (hk : k < id_list.length) (j : ℕ), j < 4 →
      (observations.foldl (sortStep id_list) acc).2[4 * k + j]? =
        some ((acc.2.getD (4 * k + j) false)
          || decide (id_list.get ⟨k, hk⟩ ∈ observations.map Obs.id)) := by
  induction observations with
  | nil =>
    intro acc hlen k hk j hj
    have hin : 4 * k + j < acc.2.length := by omega
    simp only [List.foldl_nil, List.map_nil, List.not_mem_nil, decide_False, Bool.or_false]
    rw [List.getElem?_eq_getElem hin, List.getD_eq_getElem acc.2 false hin]
  | cons o rest ih =>
    intro acc hlen k hk j hj
    simp only [List.foldl_cons]
    have hlen2 : (sortStep id_list acc o).2.length = id_list.length * 4 := by
      unfold sortStep writeObs
      split <;> simp [List.length_set, hlen]
    rw [ih (sortStep id_list acc o) hlen2 k hk j hj]
    congr 1
    simp only [List.map_cons, List.mem_cons]
    unfold sortStep
    split_ifs with hmem
    · have hk0 : id_list.indexOf o.id < id_list.length := List.indexOf_lt_length.mpr hmem
      have hgetk0 : id_list.get ⟨id_list.indexOf o.id, hk0⟩ = o.id := List.indexOf_get hk0
      by_cases hkk : id_list.indexOf o.id = k
      · -- block k written: getD = true, and get ⟨k⟩ = o.id
        have hget : id_list.get ⟨k, hk⟩ = o.id := by
          rw [← hgetk0]; congr 1; exact Fin.ext hkk.symm
        have hhit : (writeObs acc (id_list.indexOf o.id) o).2[4 * k + j]? = some true := by
          rw [hkk]
          exact writeObs_mask_getElem_hit acc k o j hj (by omega)
        have hgd : (writeObs acc (id_list.indexOf o.id) o).2.getD (4 * k + j) false = true := by
          have hl : 4 * k + j < (writeObs acc (id_list.indexOf o.id) o).2.length := by
            unfold writeObs; simp [List.length_set]; omega
          rw [List.getD_eq_getElem _ false hl]
          have := hhit
          rw [List.getElem?_eq_getElem hl] at this
          exact Option.some.inj this
        rw [hgd]
        have hget2 : id_list[k] = o.id := by simpa [List.get_eq_getElem] using hget
        simp [hget2]
      · -- other block: untouched, and get ⟨k⟩ ≠ o.id
        have hmiss : (writeObs acc (id_list.indexOf o.id) o).2[4 * k + j]? = acc.2[4 * k + j]? := by
          exact writeObs_mask_getElem_miss acc _ o _ (by omega)
        have hgd : (writeObs acc (id_list.indexOf o.id) o).2.getD (4 * k + j) false =
            acc.2.getD (4 * k + j) false := by
          have hl : 4 * k + j < (writeObs acc (id_list.indexOf o.id) o).2.length := by
            unfold writeObs; simp [List.length_set]; omega
          have hl2 : 4 * k + j < acc.2.length := by omega
          rw [List.getD_eq_getElem _ false hl, List.getD_eq_getElem _ false hl2]
          have := hmiss
          rw [List.getElem?_eq_getElem hl, List.getElem?_eq_getElem hl2] at this
          exact Option.some.inj this
        have hne : id_list.get ⟨k, hk⟩ ≠ o.id := by
          intro hcon
          apply hkk
          have : id_list.indexOf (id_list.get ⟨k, hk⟩) = k := List.get_indexOf hids ⟨k, hk⟩
          rw [hcon] at this
          exact this
        rw [hgd]
        have hne2 : ¬(id_list[k] = o.id) := by simpa [List.get_eq_getElem] using hne
        simp [hne2]
    · -- o.id not in layout: acc unchanged, and get ⟨k⟩ ≠ o.id since get ∈ id_list
      have hne : id_list.get ⟨k, hk⟩ ≠ o.id := by
        intro hcon
        exact hmem (hcon ▸ List.get_mem id_list k hk)
      have hne2 : ¬(id_list[k] = o.id) := by simpa [List.get_eq_getElem] using hne
      simp [hne2]

theorem sort_corners_mask_getElem (observations : List Obs) (id_list : List ℤ)
    (hids : id_list.Nodup) (scene0 : List Point2)
    (k : ℕ) (hk : k < id_list.length) (j : ℕ) (hj : j < 4) :
    (sort_corners_by_id observations id_list scene0).2[4 * k + j]? =
      some (decide (id_list.get ⟨k, hk⟩ ∈ observations.map Obs.id)) := by
  unfold sort_corners_by_id
  rw [mask_foldl_getElem id_list hids observations
    (scene0, List.replicate (id_list.length * 4) false) (by simp) k hk j hj]
  congr 1
  have hgd : (List.replicate (id_list.length * 4) false).getD (4 * k + j) false = false := by
    rw [List.getD_eq_getElem _ false (by simp; omega)]
    simp
  simp only at hgd ⊢
  rw [hgd]
  simp

theorem count_true_set (m : List Bool) : ∀ i : ℕ, m[i]? = some false →
    (m.set i true).count true = m.count true + 1 := by
  induction m with
  | nil => intro i h; simp at h
  | cons b t ih =>
    intro i h
    cases i with
    | zero =>
      simp only [List.getElem?_cons_zero, Option.some.injEq] at h
      subst h
      simp [List.count_cons]
    | succ n =>
      simp only [List.getElem?_cons_succ] at h
      simp only [List.set]
      rw [List.count_cons, List.count_cons, ih n h]
      omega

theorem count_true_write4 (m : List Bool) (k : ℕ)
    (h0 : m[4 * k]? = some false) (h1 : m[4 * k + 1]? = some false)
    (h2 : m[4 * k + 2]? = some false) (h3 : m[4 * k + 3]? = some false) :
    ((((m.set (4 * k) true).set (4 * k + 1) true).set (4 * k + 2) true).set
        (4 * k + 3) true).count true = m.count true + 4 := by
  have e0 := count_true_set m (4 * k) h0
  have p1 : (m.set (4 * k) true)[4 * k + 1]? = some false := by
    rw [List.getElem?_set_ne (by omega)]; exact h1
  have e1 := count_true_set _ (4 * k + 1) p1
  have p2 : ((m.set (4 * k) true).set (4 * k + 1) true)[4 * k + 2]? = some false := by
    rw [List.getElem?_set_ne (by omega), List.getElem?_set_ne (by omega)]; exact h2
  have e2 := count_true_set _ (4 * k + 2) p2
  have p3 : (((m.set (4 * k) true).set (4 * k + 1) true).set (4 * k + 2) true)[4 * k + 3]? =
      some false := by
    rw [List.getElem?_set_ne (by omega), List.getElem?_set_ne (by omega),
      List.getElem?_set_ne (by omega)]
    exact h3
  have e3 := count_true_set _ (4 * k + 3) p3
  omega

theorem filter_length_extend (L : List ℤ) (hL : L.Nodup) (b : ℤ) (p : ℤ → Bool)
    (hb : b ∈ L) (hpb : p b = false) :
    (L.filter (fun a => p a || decide (a = b))).length = (L.filter p).length + 1 := by
  induction L with
  | nil => simp at hb
  | cons a rest ih =>
    rw [List.nodup_cons] at hL
    rcases List.mem_cons.mp hb with heq | hmem
    · have hrest : ∀ x ∈ rest, (p x || decide (x = b)) = p x := by
        intro x hx
        have hxb : ¬(x = b) := fun hcon => hL.1 (heq ▸ hcon ▸ hx)
        simp [hxb]
      rw [heq] at hpb
      rw [List.filter_cons, List.filter_cons]
      have hca : (p a || decide (a = b)) = true := by rw [hpb]; simp [heq]
      rw [if_pos hca, if_neg (by simp [hpb])]
      simp only [List.length_cons]
      rw [List.filter_congr hrest]
    · have hne : ¬(a = b) := fun hcon => hL.1 (hcon ▸ hmem)
      rw [List.filter_cons, List.filter_cons]
      have hc : (p a || decide (a = b)) = p a := by simp [hne]
      rw [hc]
      cases hpa : p a
      · rw [if_neg (by simp), if_neg (by simp)]
        exact ih hL.2 hmem
      · rw [if_pos rfl, if_pos rfl]
        simp only [List.length_cons]
        rw [ih hL.2 hmem]

theorem sort_corners_mask_count (id_list : List ℤ) (hids : id_list.Nodup)
    (observations : List Obs) :
    (observations.map Obs.id).Nodup →
    ∀ scene0 : List Point2,
    (sort_corners_by_id observations id_list scene0).2.count true =
      4 * (observedSubset observations id_list).length := by
  induction observations using List.reverseRecOn with
  | nil =>
    intro _ scene0
    unfold sort_corners_by_id observedSubset
    simp [List.count_replicate]
  | append_singleton l o ihl =>
    intro hobs scene0
    have hsplit := hobs
    rw [List.map_append] at hsplit
    simp only [List.map_cons, List.map_nil] at hsplit
    rw [List.nodup_append] at hsplit
    have hobs_l : (l.map Obs.id).Nodup := hsplit.1
    have hnotin : o.id ∉ l.map Obs.id := by
      intro hcon
      exact hsplit.2.2 hcon (by simp)
    have hfold : sort_corners_by_id (l ++ [o]) id_list scene0 =
        sortStep id_list (sort_corners_by_id l id_list scene0) o := by
      unfold sort_corners_by_id
      rw [List.foldl_append]
      rfl
    rw [hfold]
    unfold sortStep
    split_ifs with hmem
    · have hk0 : id_list.indexOf o.id < id_list.length := List.indexOf_lt_length.mpr hmem
      have hget : id_list.get ⟨id_list.indexOf o.id, hk0⟩ = o.id := List.indexOf_get hk0
      have hfalse : ∀ j, j < 4 →
          (sort_corners_by_id l id_list scene0).2[4 * id_list.indexOf o.id + j]? =
            some false := by
        intro j hj
        rw [sort_corners_mask_getElem l id_list hids scene0 (id_list.indexOf o.id) hk0 j hj]
        simp [hget, hnotin]
      have h0 : (sort_corners_by_id l id_list scene0).2[4 * id_list.indexOf o.id]? =
          some false := by
        have := hfalse 0 (by omega)
        simpa using this
      have hw : (writeObs (sort_corners_by_id l id_list scene0) (id_list.indexOf o.id) o).2.count
          true = (sort_corners_by_id l id_list scene0).2.count true + 4 := by
        unfold writeObs
        exact count_true_write4 _ _ h0 (hfalse 1 (by omega)) (hfalse 2 (by omega))
          (hfalse 3 (by omega))
      rw [hw, ihl hobs_l scene0]
      have hS : (observedSubset (l ++ [o]) id_list).length =
          (observedSubset l id_list).length + 1 := by
        unfold observedSubset
        have hcg : ∀ a ∈ id_list, decide (a ∈ (l ++ [o]).map Obs.id) =
            (decide (a ∈ l.map Obs.id) || decide (a = o.id)) := by
          intro a _
          simp [List.map_append]
        rw [List.filter_congr hcg]
        exact filter_length_extend id_list hids o.id (fun a => decide (a ∈ l.map Obs.id)) hmem
          (by simp [hnotin])
      rw [hS]
      ring
    · rw [ihl hobs_l scene0]
      have hS : observedSubset (l ++ [o]) id_list = observedSubset l id_list := by
        unfold observedSubset
        apply List.filter_congr
        intro a ha
        have hne : ¬(a = o.id) := fun hcon => hmem (hcon ▸ ha)
        simp [List.map_append, hne]
      rw [hS]

theorem scene_foldl_getElem (id_list : List ℤ) (hids : id_list.Nodup)
    (observations : List Obs) :
    (observations.map Obs.id).Nodup →
    ∀ acc : List Point2 × List Bool, acc.1.length = id_list.length * 4 →
    ∀ (k : ℕ) (hk : k < id_list.length) (j : ℕ), j < 4 →
    ∀ o ∈ observations, o.id = id_list.get ⟨k, hk⟩ →
    (observations.foldl (sortStep id_list) acc).1[4 * k + j]? = some (o.corner j) := by
  induction observations with
  | nil =>
    intro _ acc _ k hk j hj o ho
    exact absurd ho (List.not_mem_nil o)
  | cons o2 rest ih =>
    intro hobs acc hlen k hk j hj o ho hid
    rw [List.map_cons, List.nodup_cons] at hobs
    simp only [List.foldl_cons]
    rcases List.mem_cons.mp ho with heq | hmem
    · subst heq
      have hmemid : o.id ∈ id_list := by
        rw [hid]
        exact List.get_mem id_list k hk
      have hk0eq : id_list.indexOf o.id = k := by
        rw [hid]
        exact List.get_indexOf hids ⟨k, hk⟩
      have hstep : sortStep id_list acc o = writeObs acc k o := by
        unfold sortStep
        rw [if_pos hmemid, hk0eq]
      rw [hstep]
      have hni : id_list.get ⟨k, hk⟩ ∉ rest.map Obs.id := by
        rw [← hid]
        exact hobs.1
      obtain ⟨h1, _⟩ := sort_foldl_untouched id_list rest (writeObs acc k o) k hk hni
        (4 * k + j) (by omega) (by omega)
      rw [h1]
      exact writeObs_scene_getElem_hit acc k o j hj (by omega)
    · have hlen2 : (sortStep id_list acc o2).1.length = id_list.length * 4 := by
        unfold sortStep writeObs
        split <;> simp [List.length_set, hlen]
      exact ih hobs.2 (sortStep id_list acc o2) hlen2 k hk j hj o hmem hid

theorem sort_corners_scene_getElem (observations : List Obs) (id_list : List ℤ)
    (hids : id_list.Nodup) (hobs : (observations.map Obs.id).Nodup)
    (scene0 : List Point2) (hscene : scene0.length = id_list.length * 4)
    (k : ℕ) (hk : k < id_list.length) (j : ℕ) (hj : j < 4)
    (o : Obs) (ho : o ∈ observations) (hid : o.id = id_list.get ⟨k, hk⟩) :
    (sort_corners_by_id observations id_list scene0).1[4 * k + j]? = some (o.corner j) := by
  unfold sort_corners_by_id
  exact scene_foldl_getElem id_list hids observations hobs
    (scene0, List.replicate (id_list.length * 4) false) hscene k hk j hj o ho hid

/-- C2: with distinct layout ids, deduplicated observations and the scratch
buffer of the right size, the matcher sets exactly `4 * |S|` mask entries true
where `S` is the sub-list of layout ids observed, every valid slot holds the
matching observation corner, and appending an observation whose id is not in
the layout changes neither the scene array nor the mask. -/
theorem C2_matcher (id_list : List ℤ) (observations : List Obs) (scene0 : List Point2)
    (hids : id_list.Nodup) (hobs : (observations.map Obs.id).Nodup)
    (hscene : scene0.length = id_list.length * 4) :
    (sort_corners_by_id observations id_list scene0).2.count true =
      4 * (observedSubset observations id_list).length
    ∧ (∀ (k : ℕ) (hk : k < id_list.length) (j : ℕ) (hj : j < 4),
        ∀ o ∈ observations, o.id = id_list.get ⟨k, hk⟩ →
          (sort_corners_by_id observations id_list scene0).2[4 * k + j]? = some true
          ∧ (sort_corners_by_id observations id_list scene0).1[4 * k + j]? =
              some (o.corner j))
    ∧ (∀ o2 : Obs, o2.id ∉ id_list →
        sort_corners_by_id (observations ++ [o2]) id_list scene0 =
          sort_corners_by_id observations id_list scene0) := by
  refine ⟨sort_corners_mask_count id_list hids observations hobs scene0, ?_, ?_⟩
  · intro k hk j hj o ho hid
    constructor
    · rw [sort_corners_mask_getElem observations id_list hids scene0 k hk j hj]
      simp only [List.mem_map]
      congr 1
      rw [decide_eq_true_eq]
      exact ⟨o, ho, hid⟩
    · exact sort_corners_scene_getElem observations id_list hids hobs scene0 hscene
        k hk j hj o ho hid
  · intro o2 hno
    unfold sort_corners_by_id
    rw [List.foldl_append]
    simp only [List.foldl_cons, List.foldl_nil]
    unfold sortStep
    rw [if_neg hno]

theorem mask_count_lt_four (id_list : List ℤ) (hids : id_list.Nodup)
    (observations : List Obs) (hobs : (observations.map Obs.id).Nodup)
    (scene0 : List Point2)
    (hlt : (sort_corners_by_id observations id_list scene0).2.count true < 4) :
    observedSubset observations id_list = []
    ∧ (sort_corners_by_id observations id_list scene0).2.any (fun b => b) = false := by
  have hcount := sort_corners_mask_count id_list hids observations hobs scene0
  have hS : (observedSubset observations id_list).length = 0 := by omega
  have hSnil : observedSubset observations id_list = [] := List.length_eq_zero.mp hS
  refine ⟨hSnil, ?_⟩
  rw [List.any_eq_false]
  intro b hb
  intro hbtrue
  rw [hbtrue] at hb
  obtain ⟨n, hn, hval⟩ := List.mem_iff_getElem.mp hb
  have hlen := sort_corners_mask_length observations id_list scene0
  have hk : n / 4 < id_list.length := by omega
  have hj : n % 4 < 4 := Nat.mod_lt _ (by norm_num)
  have hdecomp : 4 * (n / 4) + n % 4 = n := by omega
  have hchar := sort_corners_mask_getElem observations id_list hids scene0 (n / 4) hk
    (n % 4) hj
  rw [hdecomp] at hchar
  have h2 : (sort_corners_by_id observations id_list scene0).2[n]? = some true := by
    rw [List.getElem?_eq_getElem hn, hval]
  rw [hchar] at h2
  have hmemid : id_list.get ⟨n / 4, hk⟩ ∈ observations.map Obs.id := by
    have := Option.some.inj h2
    simpa using this
  have hmemS : id_list.get ⟨n / 4, hk⟩ ∈ observedSubset observations id_list := by
    unfold observedSubset
    rw [List.mem_filter]
    exact ⟨List.get_mem id_list _ _, by simpa using hmemid⟩
  rw [hSnil] at hmemS
  exact absurd hmemS (List.not_mem_nil _)

/-- C3: when fewer than 4 valid correspondences are available for a layout —
which for this matcher happens exactly when no layout marker was observed at
all (`observedSubset = []`) — the map detector returns its failure result, the
pointer detector returns no position, and the main loop continues to the next
frame with the pipeline state untouched instead of terminating. -/
theorem C3_skip (cfg : Config) (st : PipelineState) (inp : FrameInput)
    (hret : inp.ret = true) (hq : inp.quitKey = false)
    (hmids : cfg.mapIds.Nodup) (hmobs : (inp.mapObs.map Obs.id).Nodup)
    (hpids : cfg.ptrIds.Nodup) (hpobs : (inp.ptrObs.map Obs.id).Nodup) :
    ((sort_corners_by_id inp.mapObs cfg.mapIds inp.scene0Map).2.count true < 4 →
      observedSubset inp.mapObs cfg.mapIds = []
      ∧ ModelDetector_detect cfg.solve cfg.mapObj cfg.mapIds inp.mapObs inp.scene0Map =
          (false, none)
      ∧ frameStep cfg st inp = .next st .noMarkers)
    ∧ ((sort_corners_by_id inp.ptrObs cfg.ptrIds inp.scene0Ptr).2.count true < 4 →
      observedSubset inp.ptrObs cfg.ptrIds = []
      ∧ ∀ rvec tvec : Vec3,
          PoseDetector_detect cfg.solve cfg.rodrigues cfg.ptrObj cfg.ptrIds inp.ptrObs
            inp.scene0Ptr rvec tvec = none) := by
  constructor
  · intro hlt
    obtain ⟨hS, hany⟩ := mask_count_lt_four cfg.mapIds hmids inp.mapObs hmobs inp.scene0Map hlt
    have hdet : ModelDetector_detect cfg.solve cfg.mapObj cfg.mapIds inp.mapObs inp.scene0Map =
        (false, none) := by
      unfold ModelDetector_detect
      simp [hany]
    refine ⟨hS, hdet, ?_⟩
    unfold frameStep
    simp [hret, hq, hdet]
  · intro hlt
    obtain ⟨hS, hany⟩ := mask_count_lt_four cfg.ptrIds hpids inp.ptrObs hpobs inp.scene0Ptr hlt
    refine ⟨hS, fun rvec tvec => ?_⟩
    unfold PoseDetector_detect
    simp [hany]

/-- Witness for C3: an empty frame under a trivial solver makes the map
detector fail, the pointer detector return none, and the loop step skip. -/
theorem C3_witness :
    frameStep
        ⟨[], [0], [], [1], [], ⟨0, 0, fun _ _ => (0, 0, 0)⟩, 1,
          fun _ _ => (true, (0, 0, 0), (0, 0, 0)), fun _ => mat3_id⟩
        ⟨⟨List.replicate 10 (-1), 0⟩, ⟨"", 0⟩⟩
        ⟨true, false, false, [], [], [], [], 0⟩ =
      .next ⟨⟨List.replicate 10 (-1), 0⟩, ⟨"", 0⟩⟩ .noMarkers
    ∧ ModelDetector_detect (fun _ _ => (true, (0, 0, 0), (0, 0, 0))) [] [0] [] [] =
        (false, none)
    ∧ PoseDetector_detect (fun _ _ => (true, (0, 0, 0), (0, 0, 0))) (fun _ => mat3_id)
        [] [1] [] [] (0, 0, 0) (0, 0, 0) = none := by
  have h := C3_skip
    ⟨[], [0], [], [1], [], ⟨0, 0, fun _ _ => (0, 0, 0)⟩, 1,
      fun _ _ => (true, (0, 0, 0), (0, 0, 0)), fun _ => mat3_id⟩
    ⟨⟨List.replicate 10 (-1), 0⟩, ⟨"", 0⟩⟩
    ⟨true, false, false, [], [], [], [], 0⟩
    rfl rfl (by decide) (by decide) (by decide) (by decide)
  obtain ⟨h1, h2⟩ := h
  obtain ⟨_, hdet, hframe⟩ := h1 (by decide)
  obtain ⟨_, hptr⟩ := h2 (by decide)
  exact ⟨hframe, hdet, hptr (0, 0, 0) (0, 0, 0)⟩

/-- C1 (code-bug evidence): two frames that observe only marker 0 of the
two-marker stylus layout and agree on the validity mask and on every valid row
(differing only in the uninitialised `np.empty` scratch contents behind the
invalid rows).  The map detector passes identical data to the solver on both,
but `PoseDetector.detect` hands the solver the full unfiltered `scene` array,
so with a solver that reads row 7 — an invalid row — the two pointer results
differ: the estimation result depends on entries whose validity slot is false.
-/
theorem C1_pointer_uses_invalid_rows :
    ((sort_corners_by_id [⟨0, (5, 5), (5, 5), (5, 5), (5, 5)⟩] [0, 1]
        (List.replicate 8 (0, 0))).2 =
      (sort_corners_by_id [⟨0, (5, 5), (5, 5), (5, 5), (5, 5)⟩] [0, 1]
        (List.replicate 7 (0, 0) ++ [(9, 9)])).2)
    ∧ (maskFilter
        (sort_corners_by_id [⟨0, (5, 5), (5, 5), (5, 5), (5, 5)⟩] [0, 1]
          (List.replicate 8 (0, 0))).1
        (sort_corners_by_id [⟨0, (5, 5), (5, 5), (5, 5), (5, 5)⟩] [0, 1]
          (List.replicate 8 (0, 0))).2 =
      maskFilter
        (sort_corners_by_id [⟨0, (5, 5), (5, 5), (5, 5), (5, 5)⟩] [0, 1]
          (List.replicate 7 (0, 0) ++ [(9, 9)])).1
        (sort_corners_by_id [⟨0, (5, 5), (5, 5), (5, 5), (5, 5)⟩] [0, 1]
          (List.replicate 7 (0, 0) ++ [(9, 9)])).2)
    ∧ (ModelDetector_detect
        (fun _obj scene =>
          (true, (0, 0, 0), ((scene.getD 7 (0, 0)).1, (scene.getD 7 (0, 0)).2, 0)))
        (List.replicate 8 (0, 0, 0)) [0, 1] [⟨0, (5, 5), (5, 5), (5, 5), (5, 5)⟩]
        (List.replicate 8 (0, 0)) =
      ModelDetector_detect
        (fun _obj scene =>
          (true, (0, 0, 0), ((scene.getD 7 (0, 0)).1, (scene.getD 7 (0, 0)).2, 0)))
        (List.replicate 8 (0, 0, 0)) [0, 1] [⟨0, (5, 5), (5, 5), (5, 5), (5, 5)⟩]
        (List.replicate 7 (0, 0) ++ [(9, 9)]))
    ∧ PoseDetector_detect
        (fun _obj scene =>
          (true, (0, 0, 0), ((scene.getD 7 (0, 0)).1, (scene.getD 7 (0, 0)).2, 0)))
        (fun _ => mat3_id) (List.replicate 8 (0, 0, 0)) [0, 1]
        [⟨0, (5, 5), (5, 5), (5, 5), (5, 5)⟩] (List.replicate 8 (0, 0)) (0, 0, 0) (0, 0, 0) ≠
      PoseDetector_detect
        (fun _obj scene =>
          (true, (0, 0, 0), ((scene.getD 7 (0, 0)).1, (scene.getD 7 (0, 0)).2, 0)))
        (fun _ => mat3_id) (List.replicate 8 (0, 0, 0)) [0, 1]
        [⟨0, (5, 5), (5, 5), (5, 5), (5, 5)⟩] (List.replicate 7 (0, 0) ++ [(9, 9)])
        (0, 0, 0) (0, 0, 0) := by
  have hs1 : sort_corners_by_id [⟨0, (5, 5), (5, 5), (5, 5), (5, 5)⟩] [0, 1]
      (List.replicate 8 (0, 0)) =
      ([(5, 5), (5, 5), (5, 5), (5, 5), (0, 0), (0, 0), (0, 0), (0, 0)],
       [true, true, true, true, false, false, false, false]) := by decide
  have hs2 : sort_corners_by_id [⟨0, (5, 5), (5, 5), (5, 5), (5, 5)⟩] [0, 1]
      (List.replicate 7 (0, 0) ++ [(9, 9)]) =
      ([(5, 5), (5, 5), (5, 5), (5, 5), (0, 0), (0, 0), (0, 0), (9, 9)],
       [true, true, true, true, false, false, false, false]) := by decide
  refine ⟨by decide, by decide, by decide, ?_⟩
  have e1 : PoseDetector_detect
      (fun _obj scene =>
        (true, (0, 0, 0), ((scene.getD 7 (0, 0)).1, (scene.getD 7 (0, 0)).2, 0)))
      (fun _ => mat3_id) (List.replicate 8 (0, 0, 0)) [0, 1]
      [⟨0, (5, 5), (5, 5), (5, 5), (5, 5)⟩] (List.replicate 8 (0, 0)) (0, 0, 0) (0, 0, 0) =
      some (0, 0, 0) := by
    unfold PoseDetector_detect
    rw [hs1]
    norm_num [reverse_project, mat3_inv, mat3_det, mat3_id, mat3_mulVec, vec3_sub]
  have e2 : PoseDetector_detect
      (fun _obj scene =>
        (true, (0, 0, 0), ((scene.getD 7 (0, 0)).1, (scene.getD 7 (0, 0)).2, 0)))
      (fun _ => mat3_id) (List.replicate 8 (0, 0, 0)) [0, 1]
      [⟨0, (5, 5), (5, 5), (5, 5), (5, 5)⟩] (List.replicate 7 (0, 0) ++ [(9, 9)])
      (0, 0, 0) (0, 0, 0) = some (9, 9, 0) := by
    unfold PoseDetector_detect
    rw [hs2]
    norm_num [reverse_project, mat3_inv, mat3_det, mat3_id, mat3_mulVec, vec3_sub]
  rw [e1, e2]
  intro hcon
  have := Option.some.inj hcon
  simp [Prod.ext_iff] at this

/-- Witness for C2 on a two-marker layout with one layout marker and one
foreign marker observed. -/
theorem C2_witness :
    (sort_corners_by_id
        [⟨10, (1, 2), (3, 4), (5, 6), (7, 8)⟩, ⟨99, (0, 0), (0, 0), (0, 0), (0, 0)⟩]
        [10, 20] (List.replicate 8 (0, 0))).2.count true =
      4 * (observedSubset
        [⟨10, (1, 2), (3, 4), (5, 6), (7, 8)⟩, ⟨99, (0, 0), (0, 0), (0, 0), (0, 0)⟩]
        [10, 20]).length
    ∧ (sort_corners_by_id
        [⟨10, (1, 2), (3, 4), (5, 6), (7, 8)⟩, ⟨99, (0, 0), (0, 0), (0, 0), (0, 0)⟩]
        [10, 20] (List.replicate 8 (0, 0))).2[1]? = some true
    ∧ (sort_corners_by_id
        [⟨10, (1, 2), (3, 4), (5, 6), (7, 8)⟩, ⟨99, (0, 0), (0, 0), (0, 0), (0, 0)⟩]
        [10, 20] (List.replicate 8 (0, 0))).1[1]? = some (3, 4)
    ∧ sort_corners_by_id
        ([⟨10, (1, 2), (3, 4), (5, 6), (7, 8)⟩, ⟨99, (0, 0), (0, 0), (0, 0), (0, 0)⟩] ++
          [⟨77, (1, 1), (1, 1), (1, 1), (1, 1)⟩])
        [10, 20] (List.replicate 8 (0, 0)) =
      sort_corners_by_id
        [⟨10, (1, 2), (3, 4), (5, 6), (7, 8)⟩, ⟨99, (0, 0), (0, 0), (0, 0), (0, 0)⟩]
        [10, 20] (List.replicate 8 (0, 0)) := by
  have h := C2_matcher [10, 20]
    [⟨10, (1, 2), (3, 4), (5, 6), (7, 8)⟩, ⟨99, (0, 0), (0, 0), (0, 0), (0, 0)⟩]
    (List.replicate 8 (0, 0)) (by decide) (by decide) (by decide)
  have hb := h.2.1 0 (by decide) 1 (by decide) ⟨10, (1, 2), (3, 4), (5, 6), (7, 8)⟩
    (by decide) (by decide)
  refine ⟨h.1, ?_, ?_, h.2.2 ⟨77, (1, 1), (1, 1), (1, 1), (1, 1)⟩ (by decide)⟩
  · simpa using hb.1
  · simpa [Obs.corner] using hb.2
